import Mathlib

/-!
Verification of the document discovery and acquisition engine of the
mira-llm repository (scrapers package).

The Python sources embedded here:
  * `scrapers/utils/scraper_factory.py`  — `ScraperFactory.classify_url`,
    `ScraperFactory.create_scraper`
  * `scrapers/sources/legislation_scraper.py` — `LegislationScraper.__init__`
    (stats), `download_document`, `process_document_links`, `process_url`,
    `run`
  * `scrapers/config/scraper_config.py` — `FILE_TYPES`, `SCRAPER_CONFIG`

Strings are modelled as Lean `String` (a wrapper around `List Char`), with
explicit executable re-implementations of the Python primitives used by the
code (`in` substring test, `str.endswith`, `str.lower`, `str.split`,
`str.isalnum`).  Network effects are modelled by oracle inputs: the link
lists produced by the static and dynamic fetch passes, and a function from
document URL to the HTTP response (or raised exception) its GET produces.
-/

namespace Mira

/-! ### Python string primitives -/

/-- Python's `pat in s` substring containment, over character lists.
`"" in s` is `True` in Python, matched by the `isPrefixOf` base case. -/
def containsL (pat : List Char) : List Char → Bool
  | [] => pat.isEmpty
  | s@(_ :: t) => pat.isPrefixOf s || containsL pat t

/-- Python's `pat in s` on strings. -/
def pyContains (s pat : String) : Bool :=
  containsL pat.data s.data

/-- Python's `s.endswith(pat)`. -/
def pyEndsWith (s pat : String) : Bool :=
  pat.data.isSuffixOf s.data

/-- Python's `s.startswith(pat)` (used only via slicing in the model). -/
def pyStartsWith (s pat : String) : Bool :=
  pat.data.isPrefixOf s.data

/-- Character-wise lower-casing.  Python's `str.lower` is Unicode aware;
every pattern it is compared against in this code base is ASCII, and no
non-ASCII character lower-cases to one of the ASCII characters appearing in
those patterns, so the ASCII mapping is faithful for every comparison made
by the code. -/
def pyLower (s : String) : String :=
  String.mk (s.data.map Char.toLower)

/-- The characters after the last occurrence of `c`, i.e. Python's
`s.split(c)[-1]`. -/
def lastComponentL (c : Char) (s : List Char) : List Char :=
  ((s.reverse.takeWhile (fun x => x ≠ c))).reverse

/-- Python's `url.split("/")[-1]`: the part of the string after the last
slash (the whole string when there is no slash). -/
def lastUrlComponent (s : String) : String :=
  String.mk (lastComponentL '/' s.data)

/-- Python's `c.isalnum()` for a single character.  `str.isalnum` is
Unicode aware; this model is exact for every code point below `0x100`
(ASCII alphanumerics plus the Latin-1 letters, superscripts, fractions and
the micro/ordinal signs).  Code points at `0x100` and above — which Python
also largely accepts — are conservatively mapped to `false`; no theorem
below depends on a character in that range. -/
def pyIsAlnum (c : Char) : Bool :=
  (('0' ≤ c && c ≤ '9') || ('A' ≤ c && c ≤ 'Z') || ('a' ≤ c && c ≤ 'z'))
  || (c = 'ª' || c = 'µ' || c = 'º' || c = '²' || c = '³' || c = '¹'
      || c = '¼' || c = '½' || c = '¾')
  || (('À' ≤ c && c ≤ 'Ö') || ('Ø' ≤ c && c ≤ 'ö') || ('ø' ≤ c && c.toNat ≤ 0xFF))

/-! ### Configuration (`scrapers/config/scraper_config.py`) -/

/-- `FILE_TYPES = [".pdf", ".doc", ".docx", ".rtf"]`. -/
def FILE_TYPES : List String := [".pdf", ".doc", ".docx", ".rtf"]

/-- `SCRAPER_CONFIG["minimum_documents_required"] = 1`. -/
def minimum_documents_required : Nat := 1

/-! ### `ScraperFactory.classify_url` (`scrapers/utils/scraper_factory.py`) -/

/-- `ScraperFactory.classify_url(url, content_type="")`.  The Python body
lower-cases the content-type hint, then tests an ordered sequence of
patterns, returning at the first match. -/
def classify_url (url : String) (content_type : String) : String :=
  let ct := pyLower content_type
  if pyEndsWith url ".pdf" then "pdf"
  else if pyContains url "resourcesregulator.nsw.gov.au" && pyContains url "safety-alerts" then
    "nsw_bulletin_page"
  else if pyContains url "rshq.qld.gov.au" && pyContains url "safety-notices" then
    "qld_safety_notices"
  else if pyContains url "dmp.wa.gov.au" && pyContains url "safety-bulletins" then
    "wa_bulletin_page"
  else if pyContains ct "embedded" then "embedded"
  else "long_html_article"

/-- The scraper classes `ScraperFactory.create_scraper` can instantiate. -/
inductive ScraperKind where
  | pdfScraper
  | embeddedScraper
  | nswPlaywrightScraper
  | qldPlaywrightScraper
  | waPlaywrightScraper
  | htmlScraper
deriving DecidableEq, Repr

/-- `ScraperFactory.create_scraper`, reduced to the class it instantiates
(the constructor arguments `url, region, subregion, category` are passed
through unchanged and do not influence the choice). -/
def create_scraper (classification : String) : ScraperKind :=
  if classification = "pdf" then .pdfScraper
  else if classification = "embedded" then .embeddedScraper
  else if classification = "nsw_bulletin_page" then .nswPlaywrightScraper
  else if classification = "qld_safety_notices" then .qldPlaywrightScraper
  else if classification = "wa_bulletin_page" then .waPlaywrightScraper
  else .htmlScraper

/-! ### Filename handling (`LegislationScraper.download_document`) -/

/-- The search performed by `re.search(r'filename="?([^"]+)"?', content_disp)`
over a character list: at each position, try to match the literal
`filename=`, an optional double quote, then a maximal non-empty run of
non-quote characters (the capture group); on failure move one character to
the right, exactly as `re.search` does. -/
def cdSearchL : List Char → Option (List Char)
  | [] => none
  | s@(_ :: t) =>
    if ("filename=".data).isPrefixOf s then
      let rest := s.drop 9
      let rest2 := match rest with
        | '"' :: r => r
        | r => r
      let captured := rest2.takeWhile (fun c => c ≠ '"')
      if captured.isEmpty then cdSearchL t else some captured
    else cdSearchL t

/-- The filename taken from the `content-disposition` header: the code only
runs the regular expression when the header string is non-empty. -/
def cdFilename (content_disp : String) : Option String :=
  if content_disp = "" then none
  else (cdSearchL content_disp.data).map String.mk

/-- `any(filename.lower().endswith(ext) for ext in FILE_TYPES)`. -/
def hasRecognizedExt (filename : String) : Bool :=
  FILE_TYPES.any (fun ext => pyEndsWith (pyLower filename) ext)

/-- The filename-resolution logic of `download_document` (lines 112–121):
the content-disposition filename when the regex matches, otherwise the last
`/`-separated component of the URL, with `".pdf"` appended when that
component does not end in a recognized document extension.  Note that the
extension check and default-extension append happen only in the URL-component
branch of the Python code. -/
def resolveFilename (url : String) (content_disp : String) : String :=
  match cdFilename content_disp with
  | some name => name
  | none =>
    let filename := lastUrlComponent url
    if hasRecognizedExt filename then filename else filename ++ ".pdf"

/-- One character of the sanitization comprehension:
`c if c.isalnum() or c in ".-_" else "_"`. -/
def sanitizeChar (c : Char) : Char :=
  if pyIsAlnum c || (c = '.' || c = '-' || c = '_') then c else '_'

/-- `"".join(c if c.isalnum() or c in ".-_" else "_" for c in filename)`
(line 124). -/
def sanitizeFilename (filename : String) : String :=
  String.mk (filename.data.map sanitizeChar)

/-! ### Run statistics (`LegislationScraper.__init__`, lines 36–42) -/

/-- The numeric counters of `self.stats`.  The timestamps are irrelevant to
every claim and are omitted. -/
structure Stats where
  documents_processed : Nat
  documents_downloaded : Nat
  errors : Nat
deriving DecidableEq, Repr

/-- The counters as initialized by `__init__`: all zero. -/
def initStats : Stats := ⟨0, 0, 0⟩

/-! ### The download engine (`LegislationScraper.download_document`) -/

/-- The observable outcome of the `session.get(url)` performed for one
document: a response with its status and the headers the code reads, or an
exception raised anywhere inside the `try` block. -/
inductive Fetch where
  | resp (status : Nat) (content_disposition : String)
  | raises
deriving DecidableEq, Repr

/-- `download_document(url, session)`: non-200 statuses and exceptions
yield `(False, None)` (after logging a `download_error`); a 200 response
resolves and sanitizes a filename, writes the payload, increments
`stats["documents_downloaded"]` and yields `(True, safe_filename)`. -/
def download_document (url : String) (f : Fetch) (st : Stats) :
    (Bool × Option String) × Stats :=
  match f with
  | .raises => ((false, none), st)
  | .resp status cd =>
    if status ≠ 200 then ((false, none), st)
    else
      let safe := sanitizeFilename (resolveFilename url cd)
      ((true, some safe),
       { st with documents_downloaded := st.documents_downloaded + 1 })

/-- Whether a document GET counts as successful for `download_document`:
the code accepts exactly status 200 (`if response.status != 200`) and
treats every raised exception as failure. -/
def fetchOk : Fetch → Bool
  | .resp status _ => status == 200
  | .raises => false

/-- The download fan-out of `process_url` (lines 244–252): one
`download_document` task per extracted link, gathered in task order.  The
event loop interleaves the tasks, but each counter increment is atomic and
each outcome depends only on that document's own response, so the
sequential fold is an exact model of the aggregate list of outcomes and of
the final counters. -/
def downloadAll (links : List String) (fetch : String → Fetch) (st : Stats) :
    List (Bool × Option String) × Stats :=
  match links with
  | [] => ([], st)
  | l :: rest =>
    let (o, st1) := download_document l (fetch l) st
    let (os, st2) := downloadAll rest fetch st1
    (o :: os, st2)

/-! ### Link extraction (`LegislationScraper.process_document_links`) -/

/-- The scheme-and-authority prefix of a character list: everything up to
(and not including) the first `/` after the first `://`; a list without
`://` is returned unchanged. -/
def schemeHostL : List Char → List Char
  | [] => []
  | s@(c :: t) =>
    if ("://".data).isPrefixOf s then
      ':' :: '/' :: '/' :: ((s.drop 3).takeWhile (fun x => x ≠ '/'))
    else c :: schemeHostL t

/-- The scheme-and-authority prefix of a URL. -/
def schemeHost (base : String) : String :=
  String.mk (schemeHostL base.data)

/-- `urllib.parse.urljoin(base, href)`, modelled for the three shapes that
occur in this code base: an absolute href (contains `://`) replaces the
base; a host-relative href (leading `/`) is attached to the base's scheme
and authority; any other href replaces the last path component of the base.
Dot-segment normalization is not modelled — no theorem below depends on it. -/
def urljoin (base href : String) : String :=
  if pyContains href "://" then href
  else if pyStartsWith href "/" then schemeHost base ++ href
  else String.mk ((base.data.reverse.dropWhile (fun c => c ≠ '/')).reverse) ++ href

/-- One selector pass of `process_document_links` (the `for link in
soup.select(...)` loops at lines 149–154 and 157–162): the anchors are the
elements returned by `soup.select`, each carrying `link.get("href")`
(`none` models an anchor with no `href` attribute).  An href already in
`self.processed_urls` is skipped; otherwise the pair (raw href, resolved
absolute URL) is emitted and the raw href is added to the seen-set. -/
def extractPass (base : String) (anchors : List (Option String))
    (seen : List String) : List (String × String) × List String :=
  match anchors with
  | [] => ([], seen)
  | none :: rest => extractPass base rest seen
  | some href :: rest =>
    if href ∈ seen then extractPass base rest seen
    else
      let (pairs, seen') := extractPass base rest (href :: seen)
      ((href, urljoin base href) :: pairs, seen')

/-- `process_document_links(soup, base_url)`: the PDF-selector pass
followed by the DOC-selector pass, both sharing `self.processed_urls`,
returning the emitted (raw href, absolute URL) pairs (the Python function
returns the absolute URLs, `(pairs.map Prod.snd)`) and the updated
seen-set. -/
def process_document_links (base : String)
    (pdfAnchors docAnchors : List (Option String)) (seen : List String) :
    List (String × String) × List String :=
  let (p1, s1) := extractPass base pdfAnchors seen
  let (p2, s2) := extractPass base docAnchors s1
  (p1 ++ p2, s2)

/-! ### The per-URL pipeline (`LegislationScraper.process_url`) -/

/-- One `self.logger.log_error(region, url, message, error_type)` record. -/
structure LogEntry where
  url : String
  message : String
  kind : String
deriving DecidableEq, Repr

/-- The oracle inputs for one top-level URL: the link list the static
(aiohttp) pass would produce, the link list the dynamic (Playwright) pass
would produce (both are `[]` on fetch failure, which the scrape methods
turn into an empty list after logging), and the response each document GET
would receive. -/
structure UrlEnv where
  url : String
  staticLinks : List String
  dynLinks : List String
  fetch : String → Fetch

/-- The observable result of `process_url`. -/
structure UrlResult where
  success : Bool
  stats : Stats
  logs : List LogEntry
  dynamicCalls : Nat
deriving Repr

/-- `process_url(url)` (lines 225–254): static pass first; the dynamic pass
runs exactly when the static pass produced no links; with no links from
either pass a `no_documents_error` is logged and the URL fails; otherwise
every link is downloaded and the URL succeeds iff the number of successful
downloads reaches `SCRAPER_CONFIG["minimum_documents_required"]`. -/
def process_url (minReq : Nat) (env : UrlEnv) (st : Stats) : UrlResult :=
  let links := if env.staticLinks.isEmpty then env.dynLinks else env.staticLinks
  let dyn := if env.staticLinks.isEmpty then 1 else 0
  if links.isEmpty then
    { success := false
      stats := st
      logs := [⟨env.url, "No document links found", "no_documents_error"⟩]
      dynamicCalls := dyn }
  else
    let (os, st') := downloadAll links env.fetch st
    { success := decide (minReq ≤ (os.filter (fun o => o.1)).length)
      stats := st'
      logs := []
      dynamicCalls := dyn }

/-! ### The region run (`LegislationScraper.run`) -/

/-- The oracle inputs for one region run: the environment of the main
legislation URL and, when `REGION_URLS[region]` has a `"codes"` entry, the
environment of the codes-of-practice URL. -/
structure RegionEnv where
  mainEnv : UrlEnv
  codesEnv : Option UrlEnv

/-- `run()` (lines 256–270) on the no-unhandled-defect path (the `except`
arm only fires for defects escaping `process_url`, which catches every
error internally): process the main URL, then the codes URL when
configured, OR the two success flags, and require the accumulated
`documents_downloaded` counter to reach the threshold. -/
def run (minReq : Nat) (renv : RegionEnv) (st : Stats) : Bool × Stats :=
  let r1 := process_url minReq renv.mainEnv st
  match renv.codesEnv with
  | none =>
    (r1.success && decide (minReq ≤ r1.stats.documents_downloaded), r1.stats)
  | some ce =>
    let r2 := process_url minReq ce r1.stats
    ((r1.success || r2.success) &&
       decide (minReq ≤ r2.stats.documents_downloaded), r2.stats)

/-- The character class named by the spec sentence "replacing every
character outside `[A-Za-z0-9._-]`" — written from the spec's words, for
comparison against the code's `sanitizeChar`. -/
def specSafeChar (c : Char) : Bool :=
  ('A' ≤ c && c ≤ 'Z') || ('a' ≤ c && c ≤ 'z') || ('0' ≤ c && c ≤ '9')
  || c = '.' || c = '_' || c = '-'

/-! ## Helper lemmas -/

theorem download_document_fst (url : String) (f : Fetch) (st st' : Stats) :
    (download_document url f st).1 = (download_document url f st').1 := by
  cases f with
  | raises => rfl
  | resp status cd =>
    simp only [download_document]
    split <;> rfl

theorem download_document_fst_eq_fetchOk (url : String) (f : Fetch) (st : Stats) :
    (download_document url f st).1.1 = fetchOk f := by
  cases f with
  | raises => rfl
  | resp status cd =>
    simp only [download_document, fetchOk]
    split <;> simp_all

theorem download_document_downloaded (url : String) (f : Fetch) (st : Stats) :
    (download_document url f st).2.documents_downloaded =
      st.documents_downloaded + (if (download_document url f st).1.1 then 1 else 0) := by
  cases f with
  | raises => rfl
  | resp status cd =>
    simp only [download_document]
    split <;> simp

theorem download_document_processed (url : String) (f : Fetch) (st : Stats) :
    (download_document url f st).2.documents_processed = st.documents_processed := by
  cases f with
  | raises => rfl
  | resp status cd =>
    simp only [download_document]
    split <;> rfl

theorem downloadAll_cons (l : String) (rest : List String) (fetch : String → Fetch) (st : Stats) :
    downloadAll (l :: rest) fetch st =
      ((download_document l (fetch l) st).1 ::
         (downloadAll rest fetch (download_document l (fetch l) st).2).1,
       (downloadAll rest fetch (download_document l (fetch l) st).2).2) := rfl

theorem downloadAll_fst_map (links : List String) (fetch : String → Fetch) (st : Stats) :
    (downloadAll links fetch st).1.map Prod.fst = links.map (fun l => fetchOk (fetch l)) := by
  induction links generalizing st with
  | nil => rfl
  | cons l rest ih =>
    rw [downloadAll_cons]
    simp only [List.map_cons]
    rw [download_document_fst_eq_fetchOk]
    exact congrArg _ (ih _)

theorem downloadAll_length (links : List String) (fetch : String → Fetch) (st : Stats) :
    (downloadAll links fetch st).1.length = links.length := by
  have h := downloadAll_fst_map links fetch st
  have := congrArg List.length h
  simpa using this

theorem downloadAll_downloaded (links : List String) (fetch : String → Fetch) (st : Stats) :
    (downloadAll links fetch st).2.documents_downloaded =
      st.documents_downloaded + ((downloadAll links fetch st).1.filter (fun o => o.1)).length := by
  induction links generalizing st with
  | nil => simp [downloadAll]
  | cons l rest ih =>
    rw [downloadAll_cons]
    simp only [List.filter_cons]
    rw [ih, download_document_downloaded]
    by_cases h : (download_document l (fetch l) st).1.1 = true
    · simp only [h, if_true, List.length_cons]
      omega
    · simp only [Bool.not_eq_true] at h
      simp only [h, Bool.false_eq_true, if_false]
      omega

theorem downloadAll_processed (links : List String) (fetch : String → Fetch) (st : Stats) :
    (downloadAll links fetch st).2.documents_processed = st.documents_processed := by
  induction links generalizing st with
  | nil => rfl
  | cons l rest ih =>
    rw [downloadAll_cons]
    exact (ih _).trans (download_document_processed _ _ _)

theorem process_url_empty (m : Nat) (env : UrlEnv) (st : Stats)
    (h : (if env.staticLinks.isEmpty then env.dynLinks else env.staticLinks).isEmpty = true) :
    process_url m env st =
      { success := false
        stats := st
        logs := [⟨env.url, "No document links found", "no_documents_error"⟩]
        dynamicCalls := if env.staticLinks.isEmpty then 1 else 0 } := by
  simp only [process_url, h, if_true]

theorem process_url_nonempty (m : Nat) (env : UrlEnv) (st : Stats)
    (h : (if env.staticLinks.isEmpty then env.dynLinks else env.staticLinks).isEmpty = false) :
    process_url m env st =
      { success := decide (m ≤
          ((downloadAll (if env.staticLinks.isEmpty then env.dynLinks else env.staticLinks)
              env.fetch st).1.filter (fun o => o.1)).length)
        stats := (downloadAll (if env.staticLinks.isEmpty then env.dynLinks else env.staticLinks)
              env.fetch st).2
        logs := []
        dynamicCalls := if env.staticLinks.isEmpty then 1 else 0 } := by
  simp only [process_url, h, Bool.false_eq_true, if_false]

theorem process_url_success_iff_one (env : UrlEnv) (st : Stats) :
    (process_url 1 env st).success = true ↔
      st.documents_downloaded + 1 ≤ (process_url 1 env st).stats.documents_downloaded := by
  by_cases h : (if env.staticLinks.isEmpty then env.dynLinks else env.staticLinks).isEmpty = true
  · rw [process_url_empty 1 env st h]
    simp
  · rw [process_url_nonempty 1 env st (by simpa using h)]
    rw [downloadAll_downloaded]
    simp only [decide_eq_true_eq]
    omega

theorem process_url_downloaded_ge (m : Nat) (env : UrlEnv) (st : Stats) :
    st.documents_downloaded ≤ (process_url m env st).stats.documents_downloaded := by
  by_cases h : (if env.staticLinks.isEmpty then env.dynLinks else env.staticLinks).isEmpty = true
  · rw [process_url_empty m env st h]
  · rw [process_url_nonempty m env st (by simpa using h)]
    rw [downloadAll_downloaded]
    omega

theorem process_url_processed (m : Nat) (env : UrlEnv) (st : Stats) :
    (process_url m env st).stats.documents_processed = st.documents_processed := by
  by_cases h : (if env.staticLinks.isEmpty then env.dynLinks else env.staticLinks).isEmpty = true
  · rw [process_url_empty m env st h]
  · rw [process_url_nonempty m env st (by simpa using h)]
    exact downloadAll_processed _ _ _

theorem downloadAll_filter_count (p : Bool → Bool) (links : List String)
    (fetch : String → Fetch) (st : Stats) :
    ((downloadAll links fetch st).1.filter (fun o => p o.1)).length =
      (links.filter (fun l => p (fetchOk (fetch l)))).length := by
  induction links generalizing st with
  | nil => rfl
  | cons l rest ih =>
    rw [downloadAll_cons]
    simp only [List.filter_cons]
    rw [download_document_fst_eq_fetchOk]
    by_cases h : p (fetchOk (fetch l)) = true
    · simp only [h, if_true, List.length_cons, ih]
    · simp only [Bool.not_eq_true] at h
      simp only [h, Bool.false_eq_true, if_false, ih]

theorem extractPass_seen_eq (b : String) (anchors : List (Option String)) (seen : List String) :
    (extractPass b anchors seen).2 =
      ((extractPass b anchors seen).1.map Prod.fst).reverse ++ seen := by
  induction anchors generalizing seen with
  | nil => rfl
  | cons a rest ih =>
    cases a with
    | none => exact ih seen
    | some href =>
      by_cases h : href ∈ seen
      · simp only [extractPass, if_pos h]
        exact ih seen
      · simp only [extractPass, if_neg h]
        rw [ih (href :: seen)]
        simp [List.append_assoc]

theorem extractPass_fst_nodup_disjoint (b : String) (anchors : List (Option String))
    (seen : List String) :
    ((extractPass b anchors seen).1.map Prod.fst).Nodup ∧
    ∀ x ∈ (extractPass b anchors seen).1.map Prod.fst, x ∉ seen := by
  induction anchors generalizing seen with
  | nil => simp [extractPass]
  | cons a rest ih =>
    cases a with
    | none => exact ih seen
    | some href =>
      by_cases h : href ∈ seen
      · simp only [extractPass, if_pos h]
        exact ih seen
      · simp only [extractPass, if_neg h, List.map_cons]
        obtain ⟨ihn, ihd⟩ := ih (href :: seen)
        refine ⟨List.nodup_cons.2 ⟨?_, ihn⟩, ?_⟩
        · intro hmem
          exact ihd href hmem (List.mem_cons_self _ _)
        · intro x hx
          rcases List.mem_cons.1 hx with rfl | hx'
          · exact h
          · intro hxs
            exact ihd x hx' (List.mem_cons_of_mem _ hxs)

/-! ## Claim theorems -/

/-- C1: for every region run of the orchestrator (`LegislationScraper.run`
on a freshly initialized instance, with the configured threshold
`minimum_documents_required = 1`), the run reports success if and only if
the accumulated `documents_downloaded` counter, summed across all top-level
URLs processed in the run, is at least the threshold; and the reported flag
is the logical OR of each URL's success re-checked (conjoined) against the
accumulated counter. -/
theorem run_success_iff_accumulated_threshold (renv : RegionEnv) :
    ((run minimum_documents_required renv initStats).1 = true ↔
      minimum_documents_required ≤
        (run minimum_documents_required renv initStats).2.documents_downloaded)
    ∧ (run minimum_documents_required renv initStats).1 =
        (((process_url minimum_documents_required renv.mainEnv initStats).success ||
          (match renv.codesEnv with
            | none => false
            | some ce => (process_url minimum_documents_required ce
                (process_url minimum_documents_required renv.mainEnv initStats).stats).success)) &&
         decide (minimum_documents_required ≤
            (run minimum_documents_required renv initStats).2.documents_downloaded)) := by
  cases hc : renv.codesEnv with
  | none =>
    simp only [run, minimum_documents_required, hc]
    constructor
    · constructor
      · intro h
        simp only [Bool.and_eq_true, decide_eq_true_eq] at h
        exact h.2
      · intro h
        have h1 : (process_url 1 renv.mainEnv initStats).success = true := by
          rw [process_url_success_iff_one]
          simpa [initStats] using h
        simp [h1, h]
    · simp
  | some ce =>
    simp only [run, minimum_documents_required, hc]
    constructor
    · constructor
      · intro h
        simp only [Bool.and_eq_true, decide_eq_true_eq] at h
        exact h.2
      · intro h
        by_cases h1 : initStats.documents_downloaded + 1 ≤
            (process_url 1 renv.mainEnv initStats).stats.documents_downloaded
        · have hs : (process_url 1 renv.mainEnv initStats).success = true :=
            (process_url_success_iff_one _ _).2 h1
          simp [hs, h]
        · have h0 : (process_url 1 renv.mainEnv initStats).stats.documents_downloaded = 0 := by
            have hi : initStats.documents_downloaded = 0 := rfl
            omega
          have hs : (process_url 1 ce
              (process_url 1 renv.mainEnv initStats).stats).success = true := by
            rw [process_url_success_iff_one]
            rw [h0]
            exact h
          simp [hs, h]
    · trivial

/-- C2: for every top-level URL processed by `process_url`, a static fetch
pass yielding at least one extracted link means the dynamic renderer is
never invoked, and a static pass yielding zero links (including fetch
failure, which the scrape methods surface as an empty list) means the
dynamic renderer is invoked exactly once. -/
theorem static_then_dynamic_fallback (m : Nat) (env : UrlEnv) (st : Stats) :
    (env.staticLinks ≠ [] → (process_url m env st).dynamicCalls = 0) ∧
    (env.staticLinks = [] → (process_url m env st).dynamicCalls = 1) := by
  constructor
  · intro h
    have hs : env.staticLinks.isEmpty = false := by
      simp [List.isEmpty_iff, h]
    by_cases hl : (if env.staticLinks.isEmpty then env.dynLinks else env.staticLinks).isEmpty = true
    · rw [process_url_empty m env st hl]
      simp [hs]
    · rw [process_url_nonempty m env st (by simpa using hl)]
      simp [hs]
  · intro h
    have hs : env.staticLinks.isEmpty = true := by simp [h]
    by_cases hl : (if env.staticLinks.isEmpty then env.dynLinks else env.staticLinks).isEmpty = true
    · rw [process_url_empty m env st hl]
      simp [hs]
    · rw [process_url_nonempty m env st (by simpa using hl)]
      simp [hs]

theorem static_then_dynamic_fallback_w :
    (process_url 1 ⟨"https://h/page", [], ["https://h/a.pdf"], fun _ => Fetch.resp 200 ""⟩
        initStats).dynamicCalls = 1 ∧
    (process_url 1 ⟨"https://h/page", ["https://h/a.pdf"], [], fun _ => Fetch.resp 200 ""⟩
        initStats).dynamicCalls = 0 :=
  ⟨(static_then_dynamic_fallback 1
      ⟨"https://h/page", [], ["https://h/a.pdf"], fun _ => Fetch.resp 200 ""⟩ initStats).2 rfl,
   (static_then_dynamic_fallback 1
      ⟨"https://h/page", ["https://h/a.pdf"], [], fun _ => Fetch.resp 200 ""⟩ initStats).1
      (by simp)⟩

/-- C4 (code bug): the code never increments `stats["documents_processed"]`
anywhere, so after the first successful download the claimed invariant
`documents_downloaded ≤ documents_processed` is violated.  Evaluation of a
run whose single URL yields one link downloaded with status 200: the final
counters are `documents_downloaded = 1`, `documents_processed = 0`. -/
theorem processed_counter_stuck_at_zero :
    ((run 1 ⟨⟨"https://reg.example/legislation", ["https://reg.example/a.pdf"], [],
        fun _ => Fetch.resp 200 ""⟩, none⟩ initStats).2.documents_downloaded = 1) ∧
    ((run 1 ⟨⟨"https://reg.example/legislation", ["https://reg.example/a.pdf"], [],
        fun _ => Fetch.resp 200 ""⟩, none⟩ initStats).2.documents_processed = 0) ∧
    ¬ ((run 1 ⟨⟨"https://reg.example/legislation", ["https://reg.example/a.pdf"], [],
        fun _ => Fetch.resp 200 ""⟩, none⟩ initStats).2.documents_downloaded ≤
       (run 1 ⟨⟨"https://reg.example/legislation", ["https://reg.example/a.pdf"], [],
        fun _ => Fetch.resp 200 ""⟩, none⟩ initStats).2.documents_processed) := by
  refine ⟨rfl, rfl, ?_⟩
  decide

/-- C5 (amended): each per-document download outcome is a function of that
document's own response only — the outcome list has one entry per link, its
success flags are the pointwise `fetchOk` of each link's own response (200
status: success; any other status or a raised exception: failure), and
hence a batch with one non-200 URL and the rest 200 yields exactly one
failure outcome and successes for all the rest; no response aborts the
batch. -/
theorem download_isolation_per_document (links : List String)
    (fetch : String → Fetch) (st : Stats) :
    ((downloadAll links fetch st).1.length = links.length) ∧
    ((downloadAll links fetch st).1.map Prod.fst = links.map fun l => fetchOk (fetch l)) ∧
    (((downloadAll links fetch st).1.filter (fun o => o.1)).length =
      (links.filter (fun l => fetchOk (fetch l))).length) ∧
    (((downloadAll links fetch st).1.filter (fun o => !o.1)).length =
      (links.filter (fun l => !fetchOk (fetch l))).length) :=
  ⟨downloadAll_length links fetch st,
   downloadAll_fst_map links fetch st,
   downloadAll_filter_count (fun b => b) links fetch st,
   downloadAll_filter_count (fun b => !b) links fetch st⟩

/-- C5 counterexample to the claim as stated: a batch of two URLs whose
responses are status 200 and status 204. 204 is a 2xx status, yet the code
(`if response.status != 200`) records a failure outcome for it, so "a batch
with one non-2xx URL and the rest 2xx yields successful outcomes for every
2xx URL" is false. -/
theorem download_2xx_failure_cex :
    (200 ≤ 204 ∧ 204 < 300) ∧
    (downloadAll ["https://x/ok", "https://x/bad"]
        (fun l => if l = "https://x/bad" then Fetch.resp 204 "" else Fetch.resp 200 "")
        initStats).1.map Prod.fst = [true, false] := by
  refine ⟨⟨by norm_num, by norm_num⟩, ?_⟩
  rfl

/-- C3 (amended): within one run, a raw (pre-resolution) href string is
added to the seen-set at most once and no raw href appears twice among the
links returned by one extraction pass (`process_document_links`): the raw
hrefs emitted by a pass are pairwise distinct, none of them was already in
the seen-set, the updated seen-set is exactly the old one extended by the
emitted raw hrefs, and it stays duplicate-free.  The Download Engine,
however, may still receive duplicate *absolute* URLs from a single pass,
because deduplication happens on raw hrefs before `urljoin` resolution (see
the counterexample). -/
theorem extraction_dedup_raw_hrefs (base : String)
    (pdfAnchors docAnchors : List (Option String)) (seen : List String) :
    ((process_document_links base pdfAnchors docAnchors seen).1.map Prod.fst).Nodup ∧
    (∀ x ∈ (process_document_links base pdfAnchors docAnchors seen).1.map Prod.fst, x ∉ seen) ∧
    ((process_document_links base pdfAnchors docAnchors seen).2 =
      ((process_document_links base pdfAnchors docAnchors seen).1.map Prod.fst).reverse ++ seen) ∧
    (seen.Nodup → (process_document_links base pdfAnchors docAnchors seen).2.Nodup) := by
  have hpd : process_document_links base pdfAnchors docAnchors seen =
      ((extractPass base pdfAnchors seen).1 ++
         (extractPass base docAnchors (extractPass base pdfAnchors seen).2).1,
       (extractPass base docAnchors (extractPass base pdfAnchors seen).2).2) := rfl
  obtain ⟨n1, d1⟩ := extractPass_fst_nodup_disjoint base pdfAnchors seen
  obtain ⟨n2, d2⟩ := extractPass_fst_nodup_disjoint base docAnchors
    (extractPass base pdfAnchors seen).2
  have hs1 := extractPass_seen_eq base pdfAnchors seen
  have hs2 := extractPass_seen_eq base docAnchors (extractPass base pdfAnchors seen).2
  have hsub1 : ∀ x ∈ (extractPass base pdfAnchors seen).1.map Prod.fst,
      x ∈ (extractPass base pdfAnchors seen).2 := by
    intro x hx
    rw [hs1]
    exact List.mem_append_left _ (List.mem_reverse.2 hx)
  have hseen_sub : ∀ x ∈ seen, x ∈ (extractPass base pdfAnchors seen).2 := by
    intro x hx
    rw [hs1]
    exact List.mem_append_right _ hx
  have hnodup : (((extractPass base pdfAnchors seen).1 ++
      (extractPass base docAnchors (extractPass base pdfAnchors seen).2).1).map Prod.fst).Nodup := by
    rw [List.map_append]
    refine List.Nodup.append n1 n2 ?_
    intro a ha1 ha2
    exact d2 a ha2 (hsub1 a ha1)
  have hdisj : ∀ x ∈ ((extractPass base pdfAnchors seen).1 ++
      (extractPass base docAnchors (extractPass base pdfAnchors seen).2).1).map Prod.fst,
      x ∉ seen := by
    intro x hx
    rw [List.map_append] at hx
    rcases List.mem_append.1 hx with hx1 | hx2
    · exact d1 x hx1
    · intro hxs
      exact d2 x hx2 (hseen_sub x hxs)
  have hseen' : (extractPass base docAnchors (extractPass base pdfAnchors seen).2).2 =
      (((extractPass base pdfAnchors seen).1 ++
        (extractPass base docAnchors (extractPass base pdfAnchors seen).2).1).map
          Prod.fst).reverse ++ seen := by
    rw [hs2, hs1, List.map_append, List.reverse_append, List.append_assoc]
  rw [hpd]
  refine ⟨hnodup, hdisj, hseen', ?_⟩
  intro hsn
  rw [hseen']
  refine List.Nodup.append (List.nodup_reverse.2 hnodup) hsn ?_
  intro a ha
  exact hdisj a (List.mem_reverse.1 ha)

/-- C3 counterexample to the claim as stated: the raw hrefs
`"http://h/d.pdf"` and `"/d.pdf"` are distinct strings (both matched by the
`a[href$='.pdf']` selector), so both survive the raw-href seen-set check,
yet they resolve to the same absolute URL — the Download Engine receives a
duplicate absolute URL from a single extraction pass. -/
theorem extraction_dup_absolute_urls_cex :
    ((process_document_links "http://h/a" [some "http://h/d.pdf", some "/d.pdf"] [] []).1.map
        Prod.snd = ["http://h/d.pdf", "http://h/d.pdf"]) ∧
    ¬ ((process_document_links "http://h/a" [some "http://h/d.pdf", some "/d.pdf"] [] []).1.map
        Prod.snd).Nodup := by
  refine ⟨rfl, ?_⟩
  decide

/-- C8 (amended): when both the static and the dynamic pass yield zero
extracted links, `process_url` logs exactly one error for that URL with
message "No document links found" and error kind `no_documents_error`
(not `no_documents_found`), leaves the counters untouched (zero documents
downloaded), reports failure for the URL, and has invoked the dynamic
renderer exactly once. -/
theorem no_documents_terminal_failure (m : Nat) (env : UrlEnv) (st : Stats)
    (h1 : env.staticLinks = []) (h2 : env.dynLinks = []) :
    process_url m env st =
      { success := false
        stats := st
        logs := [⟨env.url, "No document links found", "no_documents_error"⟩]
        dynamicCalls := 1 } := by
  have hl : (if env.staticLinks.isEmpty then env.dynLinks else env.staticLinks).isEmpty = true := by
    simp [h1, h2]
  rw [process_url_empty m env st hl]
  simp [h1]

theorem no_documents_terminal_failure_w :
    process_url 1 ⟨"https://example.org/page", [], [], fun _ => Fetch.raises⟩ initStats =
      { success := false
        stats := initStats
        logs := [⟨"https://example.org/page", "No document links found", "no_documents_error"⟩]
        dynamicCalls := 1 } :=
  no_documents_terminal_failure 1
    ⟨"https://example.org/page", [], [], fun _ => Fetch.raises⟩ initStats rfl rfl

/-- C8 counterexample to the claim as stated: with both passes empty the
logged error kind is the string `"no_documents_error"`; no log entry
carries the kind `"no_documents_found"` named by the claim. -/
theorem no_documents_error_kind_cex :
    ((process_url 1 ⟨"https://example.org/p", [], [], fun _ => Fetch.raises⟩
        initStats).logs.map LogEntry.kind = ["no_documents_error"]) ∧
    ¬ ("no_documents_found" ∈
        (process_url 1 ⟨"https://example.org/p", [], [], fun _ => Fetch.raises⟩
          initStats).logs.map LogEntry.kind) := by
  refine ⟨rfl, ?_⟩
  decide

theorem extraction_dedup_raw_hrefs_w :
    (process_document_links "https://h/x"
      [some "a.pdf", some "a.pdf", some "b.doc"] [some "b.doc"] []).2.Nodup :=
  (extraction_dedup_raw_hrefs "https://h/x"
    [some "a.pdf", some "a.pdf", some "b.doc"] [some "b.doc"] []).2.2.2 List.nodup_nil

theorem sanitizeChar_fixed (c : Char) : sanitizeChar (sanitizeChar c) = sanitizeChar c := by
  unfold sanitizeChar
  split
  · rfl
  · decide

theorem sanitizeChar_allowed (c : Char) :
    (pyIsAlnum (sanitizeChar c) || (sanitizeChar c = '.' || sanitizeChar c = '-' ||
      sanitizeChar c = '_')) = true := by
  unfold sanitizeChar
  split
  · assumption
  · decide

/-- C7 (amended): sanitization replaces every character that is neither
alphanumeric (in the Unicode sense of Python's `str.isalnum`) nor one of
`.`, `-`, `_` with `_`; it is idempotent, and every character of the output
is alphanumeric or one of `.`, `-`, `_`.  The output is *not* confined to
ASCII `[A-Za-z0-9._-]`: non-ASCII alphanumerics pass through unchanged (see
the counterexample). -/
theorem sanitize_idempotent_and_charset (s : String) :
    sanitizeFilename (sanitizeFilename s) = sanitizeFilename s ∧
    ((sanitizeFilename s).data.all
      (fun c => pyIsAlnum c || (c = '.' || c = '-' || c = '_'))) = true := by
  constructor
  · show String.mk (((String.mk (s.data.map sanitizeChar)).data).map sanitizeChar) = _
    have hd : (String.mk (s.data.map sanitizeChar)).data = s.data.map sanitizeChar := rfl
    rw [hd, List.map_map]
    have hf : sanitizeChar ∘ sanitizeChar = sanitizeChar := funext sanitizeChar_fixed
    rw [hf]
    rfl
  · show ((s.data.map sanitizeChar).all _) = true
    rw [List.all_map, List.all_eq_true]
    intro c _
    exact sanitizeChar_allowed c

/-- C7 counterexample to the claim as stated: Python's `str.isalnum` is
Unicode aware, so `é` (U+00E9) is kept by the sanitizer even though it is
outside `[A-Za-z0-9._-]` — sanitization does not replace every character
outside that ASCII class. -/
theorem sanitize_nonascii_cex :
    sanitizeFilename "é" = "é" ∧
    ((sanitizeFilename "é").data.all specSafeChar) = false := by
  decide

theorem pyLower_append (a b : String) : pyLower (a ++ b) = pyLower a ++ pyLower b := by
  show String.mk ((a ++ b).data.map Char.toLower) = _
  rw [String.data_append, List.map_append]
  rfl

theorem pyEndsWith_append (a b : String) : pyEndsWith (a ++ b) b = true := by
  show b.data.isSuffixOf (a ++ b).data = true
  rw [String.data_append, List.isSuffixOf_iff_suffix]
  exact List.suffix_append a.data b.data

theorem hasRecognizedExt_append_pdf (s : String) :
    hasRecognizedExt (s ++ ".pdf") = true := by
  have h1 : pyLower (s ++ ".pdf") = pyLower s ++ ".pdf" := by
    rw [pyLower_append]
    rfl
  have h2 : pyEndsWith (pyLower (s ++ ".pdf")) ".pdf" = true := by
    rw [h1]
    exact pyEndsWith_append (pyLower s) ".pdf"
  simp only [hasRecognizedExt, FILE_TYPES, List.any_cons, h2, Bool.true_or]

/-- C9 (amended): for every successful download the filename is resolved in
this order: (1) the filename extracted from the `Content-Disposition`
header when the regex matches, used *as is* (no extension check is applied
to it); (2) otherwise the last `/`-separated component of the URL, to which
the default extension `".pdf"` is appended exactly when the component does
not already end (case-insensitively) in a recognized document extension —
so only in case (2) is the result guaranteed to carry a recognized
extension. -/
theorem filename_resolution_order (url content_disp : String) :
    (∀ n, cdFilename content_disp = some n → resolveFilename url content_disp = n) ∧
    (cdFilename content_disp = none →
      (resolveFilename url content_disp = lastUrlComponent url ∨
       resolveFilename url content_disp = lastUrlComponent url ++ ".pdf")) ∧
    (cdFilename content_disp = none →
      hasRecognizedExt (resolveFilename url content_disp) = true) := by
  refine ⟨?_, ?_, ?_⟩
  · intro n hn
    unfold resolveFilename
    rw [hn]
  · intro hn
    unfold resolveFilename
    rw [hn]
    by_cases h : hasRecognizedExt (lastUrlComponent url) = true
    · left
      simp [h]
    · right
      simp only [Bool.not_eq_true] at h
      simp [h]
  · intro hn
    unfold resolveFilename
    rw [hn]
    by_cases h : hasRecognizedExt (lastUrlComponent url) = true
    · simp [h]
    · simp only [Bool.not_eq_true] at h
      simp only [h, Bool.false_eq_true, if_false]
      exact hasRecognizedExt_append_pdf (lastUrlComponent url)

theorem filename_resolution_order_w :
    resolveFilename "https://x/d" "attachment; filename=\"r.pdf\"" = "r.pdf" ∧
    hasRecognizedExt (resolveFilename "https://x/page" "") = true :=
  ⟨(filename_resolution_order "https://x/d" "attachment; filename=\"r.pdf\"").1 "r.pdf"
      (by decide),
   (filename_resolution_order "https://x/page" "").2.2 (by decide)⟩

/-- C9 counterexample to the claim as stated: a response whose
`Content-Disposition` header supplies the name `report` — the name has no
recognized document extension, yet the code appends nothing (the default
extension step only runs in the URL-component branch), so the resolved
filename is `report`. -/
theorem content_disposition_no_ext_cex :
    resolveFilename "https://example.org/download" "attachment; filename=report" = "report" ∧
    hasRecognizedExt "report" = false := by
  decide

/-- C6 (amended): `classify_url` is a pure function evaluating its pattern
predicates in a fixed order with the first match winning: (1) a URL ending
in the string `".pdf"` (this check only, not every document-file extension)
classifies as `"pdf"` regardless of any other pattern match; (2) otherwise
the NSW, then QLD, then WA host-and-path substring patterns; (3) otherwise
a lower-cased content-type hint containing `"embedded"` yields
`"embedded"`; (4) otherwise `"long_html_article"`. -/
theorem classify_url_first_match_order (url ct : String) :
    (pyEndsWith url ".pdf" = true → classify_url url ct = "pdf") ∧
    (pyEndsWith url ".pdf" = false →
      (pyContains url "resourcesregulator.nsw.gov.au" && pyContains url "safety-alerts") = true →
      classify_url url ct = "nsw_bulletin_page") ∧
    (pyEndsWith url ".pdf" = false →
      (pyContains url "resourcesregulator.nsw.gov.au" && pyContains url "safety-alerts") = false →
      (pyContains url "rshq.qld.gov.au" && pyContains url "safety-notices") = true →
      classify_url url ct = "qld_safety_notices") ∧
    (pyEndsWith url ".pdf" = false →
      (pyContains url "resourcesregulator.nsw.gov.au" && pyContains url "safety-alerts") = false →
      (pyContains url "rshq.qld.gov.au" && pyContains url "safety-notices") = false →
      (pyContains url "dmp.wa.gov.au" && pyContains url "safety-bulletins") = true →
      classify_url url ct = "wa_bulletin_page") ∧
    (pyEndsWith url ".pdf" = false →
      (pyContains url "resourcesregulator.nsw.gov.au" && pyContains url "safety-alerts") = false →
      (pyContains url "rshq.qld.gov.au" && pyContains url "safety-notices") = false →
      (pyContains url "dmp.wa.gov.au" && pyContains url "safety-bulletins") = false →
      pyContains (pyLower ct) "embedded" = true →
      classify_url url ct = "embedded") ∧
    (pyEndsWith url ".pdf" = false →
      (pyContains url "resourcesregulator.nsw.gov.au" && pyContains url "safety-alerts") = false →
      (pyContains url "rshq.qld.gov.au" && pyContains url "safety-notices") = false →
      (pyContains url "dmp.wa.gov.au" && pyContains url "safety-bulletins") = false →
      pyContains (pyLower ct) "embedded" = false →
      classify_url url ct = "long_html_article") := by
  refine ⟨?_, ?_, ?_, ?_, ?_, ?_⟩ <;> intros <;> (simp only [classify_url, *]; try simp)

theorem classify_url_first_match_order_w :
    classify_url "https://www.resourcesregulator.nsw.gov.au/safety-alerts/x.pdf" "embedded" =
      "pdf" :=
  (classify_url_first_match_order
    "https://www.resourcesregulator.nsw.gov.au/safety-alerts/x.pdf" "embedded").1 (by decide)

/-- C6 counterexample to the claim as stated: `.doc` is a document-file
extension (`FILE_TYPES`), but `classify_url` only tests `.endswith(".pdf")`,
so a `.doc` URL falls through every pattern and classifies as
`"long_html_article"`, not as the pdf variant. -/
theorem classify_doc_extension_cex :
    pyEndsWith "https://example.org/guide.doc" ".doc" = true ∧
    ".doc" ∈ FILE_TYPES ∧
    classify_url "https://example.org/guide.doc" "" = "long_html_article" ∧
    classify_url "https://example.org/guide.doc" "" ≠ "pdf" := by
  decide

/-- C10: `classify_url` always returns one of exactly six strings, and
`create_scraper` is total over classifications: every string outside the
five explicitly matched ones — including the classifier default
`"long_html_article"` and arbitrary unknown strings — silently yields the
generic `HTMLScraper`. -/
theorem classifier_factory_totality (url ct : String) :
    classify_url url ct ∈ ["pdf", "nsw_bulletin_page", "qld_safety_notices",
      "wa_bulletin_page", "embedded", "long_html_article"] ∧
    (∀ c : String, c ≠ "pdf" → c ≠ "embedded" → c ≠ "nsw_bulletin_page" →
      c ≠ "qld_safety_notices" → c ≠ "wa_bulletin_page" →
      create_scraper c = ScraperKind.htmlScraper) ∧
    create_scraper "long_html_article" = ScraperKind.htmlScraper := by
  refine ⟨?_, ?_, by decide⟩
  · unfold classify_url
    repeat' split
    all_goals simp
  · intro c h1 h2 h3 h4 h5
    simp [create_scraper, h1, h2, h3, h4, h5]

theorem classifier_factory_totality_w :
    create_scraper "banana" = ScraperKind.htmlScraper :=
  (classifier_factory_totality "x" "").2.1 "banana" (by decide) (by decide) (by decide)
    (by decide) (by decide)

end Mira
